import Mathlib

/-
Verification development for `bin/env-bin/test-network-prereqs.py`.

The Python program is shallowly embedded below.  Text is modelled at the
character-list level (`List Char`); Python's `str.splitlines`, `str.strip`,
`str.split(":", 1)`, the request-line regular expression, and the dict with
scalar-or-list values are each translated into executable Lean definitions.
Network transport, DNS resolution and the docker-compose stack are external
collaborators; they enter the model as explicit inputs (the raw response
text, the resolved address list, the probe outcome per host/port pair).
-/

set_option autoImplicit false

deriving instance DecidableEq for Except

namespace TpHub

/-- ASCII model of Python's `\s` character class (regex whitespace). -/
def isPyWs (c : Char) : Bool :=
  c = ' ' || c = '\t' || c = '\n' || c = '\r' || c = '\x0b' || c = '\x0c'

/-- ASCII model of Python's `\d` character class. -/
def isDigitC (c : Char) : Bool :=
  '0' ≤ c && c ≤ '9'

/-- Line-break characters recognised by Python's `str.splitlines`. -/
def isLineBreak (c : Char) : Bool :=
  c = '\n' || c = '\r' || c = '\x0b' || c = '\x0c' || c = '\x1c' || c = '\x1d' ||
  c = '\x1e' || c = '\u0085' || c = '\u2028' || c = '\u2029'

/-- Worker for `pySplitlines`; `acc` holds the current line reversed. -/
def pySplitlinesAux : List Char → List Char → List (List Char)
  | [], acc => if acc = [] then [] else [acc.reverse]
  | '\r' :: '\n' :: rest, acc => acc.reverse :: pySplitlinesAux rest []
  | c :: rest, acc =>
    if isLineBreak c then acc.reverse :: pySplitlinesAux rest []
    else pySplitlinesAux rest (c :: acc)

/-- Python's `str.splitlines` (no trailing empty line after a final break). -/
def pySplitlines (l : List Char) : List (List Char) :=
  pySplitlinesAux l []

/-- Python's `str.strip()`: drop whitespace from both ends. -/
def pyStrip (l : List Char) : List Char :=
  ((l.dropWhile isPyWs).reverse.dropWhile isPyWs).reverse

/-- Python's `line.split(":", 1)`: text before the first colon and after it. -/
def splitFirstColon : List Char → List Char × List Char
  | [] => ([], [])
  | c :: rest =>
    if c = ':' then ([], rest)
    else
      let p := splitFirstColon rest
      (c :: p.1, p.2)

/-- Python's `":" in line`. -/
def hasColon (l : List Char) : Bool :=
  l.elem ':'

/--
Matcher for the compiled pattern `_whoami_get_re`:
`^(?P<verb>GET|POST)\s+(?P<path>.*[^\s])\s+HTTP/(?P<http_version>\d+\.\d+)\s*$`.
Returns the captured `(verb, path, http_version)` groups.  The greedy `.*`
forces the `HTTP/<d>.<d>` suffix to be the rightmost one, so the match is
computed from the right end of the line: strip trailing whitespace, read the
maximal digit run, a dot, another maximal digit run, the literal `HTTP/`, at
least one whitespace character, and a nonempty path ending in non-whitespace.
-/
def parseRequestLineFrom (verb rest : List Char) : Option (List Char × List Char × List Char) :=
  if rest.takeWhile isPyWs = [] then none
  else
    let t := rest.dropWhile isPyWs
    let rt := t.reverse.dropWhile isPyWs
    let bRev := rt.takeWhile isDigitC
    if bRev = [] then none
    else
      match rt.dropWhile isDigitC with
      | '.' :: rt3 =>
        let aRev := rt3.takeWhile isDigitC
        if aRev = [] then none
        else
          let rt4 := rt3.dropWhile isDigitC
          if rt4.take 5 = ['/', 'P', 'T', 'T', 'H'] then
            let rt5 := rt4.drop 5
            if rt5.takeWhile isPyWs = [] then none
            else
              let pRev := rt5.dropWhile isPyWs
              if pRev = [] then none
              else some (verb, pRev.reverse, aRev.reverse ++ '.' :: bRev.reverse)
          else none
      | _ => none

/-- `re.match` of `_whoami_get_re` against one line. -/
def parseRequestLine (l : List Char) : Option (List Char × List Char × List Char) :=
  if l.take 3 = ['G', 'E', 'T'] then parseRequestLineFrom ['G', 'E', 'T'] (l.drop 3)
  else if l.take 4 = ['P', 'O', 'S', 'T'] then parseRequestLineFrom ['P', 'O', 'S', 'T'] (l.drop 4)
  else none

/-- A stored header value: Python keeps either a `str` or a `list` of `str`. -/
inductive HVal where
  | scalar (s : List Char)
  | seq (vs : List (List Char))
  deriving DecidableEq, Repr

/-- The parse result dict: insertion-ordered association list with unique keys. -/
abbrev Record := List (List Char × HVal)

instance : Nonempty Record := ⟨[]⟩
instance : Nonempty (List Char × HVal) := ⟨([], .scalar [])⟩

def httpVerbK : List Char := "http-verb".data
def httpPathK : List Char := "http-path".data
def httpVersionK : List Char := "http-version".data
def hostnameK : List Char := "Hostname".data

/-- The three keys written by a request-line match. -/
def reservedKeys : List (List Char) := [httpVerbK, httpPathK, httpVersionK]

/-- Python dict lookup `result.get(k)`. -/
def lookup : Record → List Char → Option HVal
  | [], _ => none
  | (k', v') :: rest, k => if k' = k then some v' else lookup rest k

/-- Python dict assignment `result[k] = v` with a string value: replaces in
place, appends a new key at the end (insertion order preserved). -/
def setScalar : Record → List Char → List Char → Record
  | [], k, v => [(k, .scalar v)]
  | (k', v') :: rest, k, v =>
    if k' = k then (k, .scalar v) :: rest
    else (k', v') :: setScalar rest k v

/-- One duplicate-header step: a scalar is promoted to a two-element list, a
list gets the new value appended (lines 70–74 of the source). -/
def promote : HVal → List Char → HVal
  | .scalar s, v => .seq [s, v]
  | .seq vs, v => .seq (vs ++ [v])

def promoteOpt : Option HVal → List Char → HVal
  | none, v => .scalar v
  | some h, v => promote h v

/-- The header branch of `parse_whoami_response`: accumulate `v` under `k`. -/
def addHeader : Record → List Char → List Char → Record
  | [], k, v => [(k, .scalar v)]
  | (k', v') :: rest, k, v =>
    if k' = k then (k, promote v' v) :: rest
    else (k', v') :: addHeader rest k v

/-- Errors raised by the embedded fragments (each `HubError` raise site, plus
the `TypeError` Python raises for `str + list` at line 112). -/
inductive HubErr where
  | invalidLine (l : List Char)
  | noHttpPath
  | typeErr
  | pathMismatch (expected : List Char) (actual : HVal)
  | noHostname
  | hostnameMismatch (expected : List Char) (actual : HVal)
  deriving DecidableEq, Repr

/-- Processing of a single line of the whoami response (lines 56–76). -/
def lineAction (r : Record) (l : List Char) : Except HubErr Record :=
  if pyStrip l = [] then .ok r
  else
    match parseRequestLine l with
    | some (v, p, ver) =>
      .ok (setScalar (setScalar (setScalar r httpVerbK v) httpPathK p) httpVersionK ver)
    | none =>
      if hasColon l then
        .ok (addHeader r (pyStrip (splitFirstColon l).1) (pyStrip (splitFirstColon l).2))
      else .error (.invalidLine l)

/-- The loop of `parse_whoami_response` over the split lines. -/
def parseLines : List (List Char) → Record → Except HubErr Record
  | [], r => .ok r
  | l :: ls, r =>
    match lineAction r l with
    | .ok r' => parseLines ls r'
    | .error e => .error e

/-- `App.parse_whoami_response` (lines 52–77). -/
def parse_whoami_response (s : String) : Except HubErr Record :=
  parseLines (pySplitlines s.data) []

/-- Normalization of `stripped_path_prefix` (lines 92–96): empty means none,
and a missing leading `/` is prepended. -/
def normPrefixC : Option String → Option (List Char)
  | none => none
  | some p =>
    if p.data = [] then none
    else if p.data.head? = some '/' then some p.data
    else some ('/' :: p.data)

/-- The value the observed path is compared against after prefix adjustment. -/
def prefixAdjust : Option (List Char) → List Char → List Char
  | none, s => s
  | some p, s => p ++ s

/-- Line 112, `stripped_path_prefix + http_path`: in Python this is `str +
str` when the stored value is a scalar, and a `TypeError` when the duplicate
promotion stored a list. -/
def tryPrefix : Option (List Char) → HVal → Except HubErr HVal
  | none, v => .ok v
  | some p, .scalar s => .ok (.scalar (p ++ s))
  | some _, .seq _ => .error .typeErr

/-- Python `stored != expected_string`: a list compares unequal to any str. -/
def hvalNeq : HVal → List Char → Bool
  | .scalar s, t => !(s == t)
  | .seq _, _ => true

/-- The hostname checks of `test_whoami_port_connection` (lines 116–120):
absence of a `Hostname` entry always raises; a mismatch raises only when an
expectation was given. -/
def checkHostname (headers : Record) (expectedHostname : Option String) : Except HubErr Unit :=
  match lookup headers hostnameK with
  | none => .error .noHostname
  | some hn =>
    match expectedHostname with
    | some h => if hvalNeq hn h.data then .error (.hostnameMismatch h.data hn) else .ok ()
    | none => .ok ()

/--
The response-validation part of `App.test_whoami_port_connection`
(lines 92–121), as a function of the raw response text and the generated
nonce (`random_path`).  The network transfer itself is external; the function
captures everything the source does once the response text is in hand.
-/
def checkWhoami (resp nonce : String) (expectedHostname strippedPfx : Option String) :
    Except HubErr Unit :=
  match parse_whoami_response resp with
  | .error e => .error e
  | .ok headers =>
    match lookup headers httpPathK with
    | none => .error .noHttpPath
    | some hp =>
      match tryPrefix (normPrefixC strippedPfx) hp with
      | .error e => .error e
      | .ok hpAdj =>
        if hvalNeq hpAdj ('/' :: nonce.data) then
          .error (.pathMismatch ('/' :: nonce.data) hpAdj)
        else checkHostname headers expectedHostname

/-- Outcome of `App.test_public_dns_name` (lines 170–179).  The source has
exactly two raise sites: the membership check (`resolves to R, not E`) and the
multiplicity check (`resolves to multiple IP addresses`). -/
inductive DnsOutcome where
  | pass
  | failNotExpected (resolved : List String) (expected : String)
  | failMultiple (resolved : List String) (expected : String)
  deriving DecidableEq, Repr

/-- `App.test_public_dns_name`, as a function of the expected public address
and the list of addresses the external resolver returned. -/
def test_public_dns_name (expected : String) (resolved : List String) : DnsOutcome :=
  if ¬ expected ∈ resolved then .failNotExpected resolved expected
  else if resolved.length > 1 then .failMultiple resolved expected
  else .pass

/-- The fixed port matrix (line 43 of the source). -/
def ports : List Nat := [80, 443, 7080, 7443, 8080, 9000]

/-- The public ingress ports probed in the second loop (line 158). -/
def publicPorts : List Nat := [80, 443]

/-- The public-to-LAN forwarding offset used in the reports (lines 161, 163):
public port `p` is expected to be forwarded to LAN listener port `p + 7000`. -/
def pubForwardTarget (p : Nat) : Nat := p + 7000

/-- Errors surfacing from `App.test_server_traefik_ports` (lines 139–167). -/
inductive OrchErr where
  /-- Line 157: `HubError` naming the failing LAN (host, port) pair. -/
  | lanPortFailed (host : String) (port : Nat) (cause : String)
  /-- Line 163: `raise(f"...") from e` raises a plain `str`.  Python rejects
  that with `TypeError: exceptions must derive from BaseException`, so the
  message naming the public port and the forwarding target is discarded; only
  the in-flight cause remains attached as context. -/
  | stringRaiseTypeError (cause : String)
  /-- Line 166: acquisition failed before `stack_created` was set. -/
  | startFailure (msg : String) (cause : String)
  deriving DecidableEq, Repr

/-- Message of the line-166 `HubError`. -/
def startFailureMessage : String :=
  "Unable to launch port test stack. Check to ensure Traefik is not running"

/-- Success message for one LAN port (line 155). -/
def lanPassMsg (lanIp : String) (port : Nat) : String :=
  "Test for hub LAN port " ++ lanIp ++ ":" ++ toString port ++ " passed!"

/-- Success message for one public port (line 161), naming the forwarding. -/
def pubPassMsg (publicIp lanIp : String) (port : Nat) : String :=
  "Test for Gateway public port " ++ publicIp ++ ":" ++ toString port ++
    " forwarding to " ++ lanIp ++ ":" ++ toString (pubForwardTarget port) ++ " passed!"

/-- Result of one probing loop: the (host, port) pairs actually probed, the
success messages printed, and the outcome. -/
structure LoopRes where
  attempts : List (String × Nat)
  logs : List String
  outcome : Except OrchErr Unit
  deriving DecidableEq, Repr

/-- The LAN loop (lines 152–157).  `probe` abstracts one
`test_whoami_port_connection` call, whose outcome depends on the network. -/
def runLan (probe : String → Nat → Except String Unit) (lanIp : String) :
    List Nat → LoopRes
  | [] => ⟨[], [], .ok ()⟩
  | p :: rest =>
    match probe lanIp p with
    | .ok _ =>
      let r := runLan probe lanIp rest
      ⟨(lanIp, p) :: r.attempts, lanPassMsg lanIp p :: r.logs, r.outcome⟩
    | .error e => ⟨[(lanIp, p)], [], .error (.lanPortFailed lanIp p e)⟩

/-- The public-port loop (lines 158–163). -/
def runPub (probe : String → Nat → Except String Unit) (publicIp lanIp : String) :
    List Nat → LoopRes
  | [] => ⟨[], [], .ok ()⟩
  | p :: rest =>
    match probe publicIp p with
    | .ok _ =>
      let r := runPub probe publicIp lanIp rest
      ⟨(publicIp, p) :: r.attempts, pubPassMsg publicIp lanIp p :: r.logs, r.outcome⟩
    | .error e => ⟨[(publicIp, p)], [], .error (.stringRaiseTypeError e)⟩

/-- Overall result of `App.test_server_traefik_ports`.  `teardownRan` records
whether the `with DockerComposeStack(...)` scope was entered, in which case
its `__exit__` (auto_down) is guaranteed by Python's `with` semantics on every
exit path. -/
structure OrchResult where
  attempts : List (String × Nat)
  logs : List String
  teardownRan : Bool
  outcome : Except OrchErr Unit
  deriving DecidableEq, Repr

/-- `App.test_server_traefik_ports` (lines 123–168).  `stackUp` is the result
of entering the docker-compose stack scope (external); `probe` is the
per-target outcome of `test_whoami_port_connection` (external network).  A
failure of `stackUp` happens before `stack_created = True`, so it is wrapped
as the start failure of line 166; any error raised inside the scope is
re-raised unchanged by line 167. -/
def test_server_traefik_ports (stackUp : Except String Unit)
    (probe : String → Nat → Except String Unit) (publicIp lanIp : String) : OrchResult :=
  match stackUp with
  | .error e => ⟨[], [], false, .error (.startFailure startFailureMessage e)⟩
  | .ok _ =>
    let r1 := runLan probe lanIp ports
    match r1.outcome with
    | .error oe => ⟨r1.attempts, r1.logs, true, .error oe⟩
    | .ok _ =>
      let r2 := runPub probe publicIp lanIp publicPorts
      ⟨r1.attempts ++ r2.attempts, r1.logs ++ r2.logs, true, r2.outcome⟩

/-! ### Spec-side observation functions

These read off, from the raw line list, the quantities the specification
speaks about: the value list accumulated for one header name, the keys
written by each line, the request-line matches, and the malformed lines. -/

/-- The header value a line contributes to key `H` (none for blank lines,
request lines, other keys, or colonless lines). -/
def headerValueOf (H : List Char) (l : List Char) : Option (List Char) :=
  if pyStrip l = [] then none
  else
    match parseRequestLine l with
    | some _ => none
    | none =>
      if hasColon l then
        if pyStrip (splitFirstColon l).1 = H then some (pyStrip (splitFirstColon l).2)
        else none
      else none

/-- Arrival-ordered list of values carried by header `H` in the input. -/
def headerValuesFor (ls : List (List Char)) (H : List Char) : List (List Char) :=
  ls.filterMap (headerValueOf H)

/-- The stored shape the source produces for a value list: absent for none,
scalar for a single value, an arrival-ordered sequence otherwise. -/
def seqOfValues : List (List Char) → Option HVal
  | [] => none
  | [v] => some (.scalar v)
  | v :: vs => some (.seq (v :: vs))

/-- Fold the duplicate-promotion step over a list of arriving values. -/
def applyValues (o : Option HVal) (vs : List (List Char)) : Option HVal :=
  vs.foldl (fun a v => some (promoteOpt a v)) o

/-- The dict keys a line writes, in write order. -/
def keyWrites (l : List Char) : List (List Char) :=
  if pyStrip l = [] then []
  else
    match parseRequestLine l with
    | some _ => [httpVerbK, httpPathK, httpVersionK]
    | none =>
      if hasColon l then [pyStrip (splitFirstColon l).1]
      else []

/-- Append a key if it is new; keeps first-occurrence order. -/
def insertNew (acc : List (List Char)) (k : List Char) : List (List Char) :=
  if k ∈ acc then acc else acc ++ [k]

/-- The keys of the record, in stored order. -/
def keysOf : Record → List (List Char)
  | [] => []
  | (k, _) :: rest => k :: keysOf rest

/-- All request-line matches of the input, in order. -/
def requestMatches (ls : List (List Char)) : List (List Char × List Char × List Char) :=
  ls.filterMap parseRequestLine

/-- A line that is non-blank, does not match the request-line pattern and has
no colon — the shape that raises the line-66 `HubError`. -/
def isInvalidLine (l : List Char) : Bool :=
  if pyStrip l = [] then false
  else
    match parseRequestLine l with
    | some _ => false
    | none => !hasColon l

example : parse_whoami_response "GET /abc HTTP/1.1\nHostname: h\nA: 1\nA: 2" =
    .ok [(httpVerbK, .scalar "GET".data), (httpPathK, .scalar "/abc".data),
         (httpVersionK, .scalar "1.1".data), ("Hostname".data, .scalar "h".data),
         ("A".data, .seq ["1".data, "2".data])] := by decide

example : checkWhoami "GET /abc HTTP/1.1\nHostname: h" "abc" (some "h") none = .ok () := by decide

example : checkWhoami "GET /abc HTTP/1.1\nHostname: h" "abd" (some "h") none =
    .error (.pathMismatch "/abd".data (.scalar "/abc".data)) := by decide

/-! ### Lemmas about the record operations -/

theorem lookup_setScalar_self (r : Record) (k v : List Char) :
    lookup (setScalar r k v) k = some (.scalar v) := by
  induction r with
  | nil => simp [setScalar, lookup]
  | cons p rest ih =>
    obtain ⟨k', v'⟩ := p
    by_cases h : k' = k
    · simp [setScalar, h, lookup]
    · simp [setScalar, h, lookup, ih]

theorem lookup_setScalar_ne (r : Record) (k v K : List Char) (h : k ≠ K) :
    lookup (setScalar r k v) K = lookup r K := by
  induction r with
  | nil => simp [setScalar, lookup, h]
  | cons p rest ih =>
    obtain ⟨k', v'⟩ := p
    by_cases h2 : k' = k
    · subst h2; simp [setScalar, lookup, h, ih]
    · simp only [setScalar, if_neg h2, lookup, ih]

theorem lookup_addHeader_self (r : Record) (k v : List Char) :
    lookup (addHeader r k v) k = some (promoteOpt (lookup r k) v) := by
  induction r with
  | nil => simp [addHeader, lookup, promoteOpt]
  | cons p rest ih =>
    obtain ⟨k', v'⟩ := p
    by_cases h : k' = k
    · simp [addHeader, h, lookup, promoteOpt]
    · simp [addHeader, h, lookup, ih]

theorem lookup_addHeader_ne (r : Record) (k v K : List Char) (h : k ≠ K) :
    lookup (addHeader r k v) K = lookup r K := by
  induction r with
  | nil => simp [addHeader, lookup, h]
  | cons p rest ih =>
    obtain ⟨k', v'⟩ := p
    by_cases h2 : k' = k
    · subst h2; simp [addHeader, lookup, h, ih]
    · simp only [addHeader, if_neg h2, lookup, ih]

theorem insertNew_cons (k' k : List Char) (acc : List (List Char)) (h : k ≠ k') :
    insertNew (k' :: acc) k = k' :: insertNew acc k := by
  by_cases hmem : k ∈ acc
  · have hm2 : k ∈ k' :: acc := List.mem_cons_of_mem _ hmem
    simp [insertNew, hmem, hm2]
  · have hm2 : ¬ k ∈ k' :: acc := by simp [h, hmem]
    simp [insertNew, hmem, hm2]

theorem keysOf_setScalar (r : Record) (k v : List Char) :
    keysOf (setScalar r k v) = insertNew (keysOf r) k := by
  induction r with
  | nil => simp [setScalar, keysOf, insertNew]
  | cons p rest ih =>
    obtain ⟨k', v'⟩ := p
    by_cases h : k' = k
    · subst h; simp [setScalar, keysOf, insertNew]
    · have hstep : setScalar ((k', v') :: rest) k v = (k', v') :: setScalar rest k v := by
        simp [setScalar, h]
      have hk : keysOf ((k', v') :: rest) = k' :: keysOf rest := rfl
      rw [hstep, hk, insertNew_cons _ _ _ (Ne.symm h)]
      simpa [keysOf] using ih

theorem keysOf_addHeader (r : Record) (k v : List Char) :
    keysOf (addHeader r k v) = insertNew (keysOf r) k := by
  induction r with
  | nil => simp [addHeader, keysOf, insertNew]
  | cons p rest ih =>
    obtain ⟨k', v'⟩ := p
    by_cases h : k' = k
    · subst h; simp [addHeader, keysOf, insertNew]
    · have hstep : addHeader ((k', v') :: rest) k v = (k', v') :: addHeader rest k v := by
        simp [addHeader, h]
      have hk : keysOf ((k', v') :: rest) = k' :: keysOf rest := rfl
      rw [hstep, hk, insertNew_cons _ _ _ (Ne.symm h)]
      simpa [keysOf] using ih

/-! ### Lemmas about `applyValues` -/

theorem applyValues_cons (o : Option HVal) (v : List Char) (vs : List (List Char)) :
    applyValues o (v :: vs) = applyValues (some (promoteOpt o v)) vs := rfl

theorem applyValues_some_seq (vs : List (List Char)) :
    ∀ ws, applyValues (some (.seq ws)) vs = some (.seq (ws ++ vs)) := by
  induction vs with
  | nil => intro ws; simp [applyValues]
  | cons v vs ih =>
    intro ws
    rw [applyValues_cons]
    show applyValues (some (.seq (ws ++ [v]))) vs = _
    rw [ih]
    simp

theorem applyValues_some_scalar (vs : List (List Char)) (s : List Char) :
    applyValues (some (.scalar s)) vs =
      some (if vs = [] then HVal.scalar s else .seq (s :: vs)) := by
  cases vs with
  | nil => simp [applyValues]
  | cons v vs =>
    rw [applyValues_cons]
    show applyValues (some (.seq [s, v])) vs = _
    rw [applyValues_some_seq]
    simp

theorem applyValues_none (vs : List (List Char)) :
    applyValues none vs = seqOfValues vs := by
  cases vs with
  | nil => rfl
  | cons v vs =>
    rw [applyValues_cons]
    show applyValues (some (.scalar v)) vs = _
    rw [applyValues_some_scalar]
    cases vs <;> simp [seqOfValues]

/-! ### Stepping lemmas for the parse loop -/

theorem parseLines_cons_ok {l : List Char} {ls : List (List Char)} {r r' : Record}
    (h : lineAction r l = .ok r') : parseLines (l :: ls) r = parseLines ls r' := by
  simp [parseLines, h]

theorem parseLines_cons_err {l : List Char} {ls : List (List Char)} {r : Record}
    {e : HubErr} (h : lineAction r l = .error e) : parseLines (l :: ls) r = .error e := by
  simp [parseLines, h]

theorem lineAction_blank {l : List Char} (r : Record) (h : pyStrip l = []) :
    lineAction r l = .ok r := by
  simp [lineAction, h]

theorem lineAction_req {l v p ver : List Char} (r : Record) (hb : ¬ pyStrip l = [])
    (hm : parseRequestLine l = some (v, p, ver)) :
    lineAction r l =
      .ok (setScalar (setScalar (setScalar r httpVerbK v) httpPathK p) httpVersionK ver) := by
  simp [lineAction, hb, hm]

theorem lineAction_header {l : List Char} (r : Record) (hb : ¬ pyStrip l = [])
    (hm : parseRequestLine l = none) (hc : hasColon l = true) :
    lineAction r l =
      .ok (addHeader r (pyStrip (splitFirstColon l).1) (pyStrip (splitFirstColon l).2)) := by
  simp [lineAction, hb, hm, hc]

theorem lineAction_invalid {l : List Char} (r : Record) (hb : ¬ pyStrip l = [])
    (hm : parseRequestLine l = none) (hc : hasColon l = false) :
    lineAction r l = .error (.invalidLine l) := by
  simp [lineAction, hb, hm, hc]

/-! ### Master lemmas about the parse loop -/

/-- Tracking one header name through the loop: the final stored value is the
promotion fold of the values arriving for that name, provided no request line
overwrites it. -/
theorem parseLines_lookup (H : List Char) :
    ∀ (ls : List (List Char)) (r out : Record),
      parseLines ls r = .ok out →
      (H ∈ reservedKeys → ∀ l ∈ ls, parseRequestLine l = none) →
      lookup out H = applyValues (lookup r H) (headerValuesFor ls H)
  | [], r, out, hok, _ => by
    simp [parseLines] at hok
    subst hok
    simp [headerValuesFor, applyValues]
  | l :: ls, r, out, hok, hres => by
    have hres' : H ∈ reservedKeys → ∀ l' ∈ ls, parseRequestLine l' = none :=
      fun hH l' hl' => hres hH l' (List.mem_cons_of_mem _ hl')
    by_cases hb : pyStrip l = []
    · rw [parseLines_cons_ok (lineAction_blank r hb)] at hok
      have hv : headerValueOf H l = none := by simp [headerValueOf, hb]
      have hvals : headerValuesFor (l :: ls) H = headerValuesFor ls H := by
        simp [headerValuesFor, List.filterMap_cons, hv]
      rw [hvals]
      exact parseLines_lookup H ls r out hok hres'
    · cases hm : parseRequestLine l with
      | some t =>
        obtain ⟨v, p, ver⟩ := t
        rw [parseLines_cons_ok (lineAction_req r hb hm)] at hok
        have hHres : ¬ H ∈ reservedKeys := by
          intro hH
          have := hres hH l (List.mem_cons_self _ _)
          rw [hm] at this
          cases this
        have hne : H ≠ httpVerbK ∧ H ≠ httpPathK ∧ H ≠ httpVersionK := by
          simpa [reservedKeys] using hHres
        obtain ⟨h1, h2, h3⟩ := hne
        have hv : headerValueOf H l = none := by simp [headerValueOf, hb, hm]
        have hvals : headerValuesFor (l :: ls) H = headerValuesFor ls H := by
          simp [headerValuesFor, List.filterMap_cons, hv]
        rw [hvals]
        have ih := parseLines_lookup H ls _ out hok hres'
        rw [ih, lookup_setScalar_ne _ _ _ _ (Ne.symm h3),
          lookup_setScalar_ne _ _ _ _ (Ne.symm h2), lookup_setScalar_ne _ _ _ _ (Ne.symm h1)]
      | none =>
        by_cases hc : hasColon l = true
        · rw [parseLines_cons_ok (lineAction_header r hb hm hc)] at hok
          by_cases hk : pyStrip (splitFirstColon l).1 = H
          · have hv : headerValueOf H l = some (pyStrip (splitFirstColon l).2) := by
              simp [headerValueOf, hb, hm, hc, hk]
            have hvals : headerValuesFor (l :: ls) H =
                pyStrip (splitFirstColon l).2 :: headerValuesFor ls H := by
              simp [headerValuesFor, List.filterMap_cons, hv]
            have ih := parseLines_lookup H ls _ out hok hres'
            rw [hvals, applyValues_cons, ih, hk, lookup_addHeader_self]
          · have hv : headerValueOf H l = none := by
              simp [headerValueOf, hb, hm, hc, hk]
            have hvals : headerValuesFor (l :: ls) H = headerValuesFor ls H := by
              simp [headerValuesFor, List.filterMap_cons, hv]
            have ih := parseLines_lookup H ls _ out hok hres'
            rw [hvals, ih, lookup_addHeader_ne _ _ _ _ hk]
        · have hc' : hasColon l = false := by simpa using hc
          rw [parseLines_cons_err (lineAction_invalid r hb hm hc')] at hok
          cases hok

/-- The stored key order is the first-occurrence fold of the written keys. -/
theorem parseLines_keys :
    ∀ (ls : List (List Char)) (r out : Record),
      parseLines ls r = .ok out →
      keysOf out = (ls.flatMap keyWrites).foldl insertNew (keysOf r)
  | [], r, out, hok => by
    simp [parseLines] at hok
    subst hok
    simp
  | l :: ls, r, out, hok => by
    by_cases hb : pyStrip l = []
    · rw [parseLines_cons_ok (lineAction_blank r hb)] at hok
      have hk : keyWrites l = [] := by simp [keyWrites, hb]
      rw [parseLines_keys ls r out hok]
      simp [List.flatMap_cons, hk]
    · cases hm : parseRequestLine l with
      | some t =>
        obtain ⟨v, p, ver⟩ := t
        rw [parseLines_cons_ok (lineAction_req r hb hm)] at hok
        have hk : keyWrites l = [httpVerbK, httpPathK, httpVersionK] := by
          simp [keyWrites, hb, hm]
        rw [parseLines_keys ls _ out hok]
        simp [List.flatMap_cons, hk, List.foldl_append, keysOf_setScalar]
      | none =>
        by_cases hc : hasColon l = true
        · rw [parseLines_cons_ok (lineAction_header r hb hm hc)] at hok
          have hk : keyWrites l = [pyStrip (splitFirstColon l).1] := by
            simp [keyWrites, hb, hm, hc]
          rw [parseLines_keys ls _ out hok]
          simp [List.flatMap_cons, hk, List.foldl_append, keysOf_addHeader]
        · have hc' : hasColon l = false := by simpa using hc
          rw [parseLines_cons_err (lineAction_invalid r hb hm hc')] at hok
          cases hok

/-- A line strips to empty exactly when all its characters are whitespace. -/
theorem pyStrip_eq_nil_iff (l : List Char) :
    pyStrip l = [] ↔ ∀ c ∈ l, isPyWs c = true := by
  rw [pyStrip, List.reverse_eq_nil_iff, List.dropWhile_eq_nil_iff]
  constructor
  · intro h c hc
    have hsplit := List.takeWhile_append_dropWhile (p := isPyWs) (l := l)
    rw [← hsplit] at hc
    rcases List.mem_append.mp hc with h1 | h2
    · exact List.mem_takeWhile_imp h1
    · exact h _ (List.mem_reverse.mpr h2)
  · intro h c hc
    exact h c ((List.dropWhile_sublist (p := isPyWs) (l := l)).subset (List.mem_reverse.mp hc))

/-- An all-whitespace line cannot match the request-line pattern. -/
theorem parseRequestLine_of_all_ws (l : List Char) (h : ∀ c ∈ l, isPyWs c = true) :
    parseRequestLine l = none := by
  have h3 : ¬ l.take 3 = ['G', 'E', 'T'] := by
    intro he
    have : 'G' ∈ l := List.take_subset 3 l (he ▸ List.mem_cons_self _ _)
    have := h 'G' this
    simp [isPyWs] at this
  have h4 : ¬ l.take 4 = ['P', 'O', 'S', 'T'] := by
    intro he
    have : 'P' ∈ l := List.take_subset 4 l (he ▸ List.mem_cons_self _ _)
    have := h 'P' this
    simp [isPyWs] at this
  simp [parseRequestLine, h3, h4]

/-- No header line carries a reserved key, so no values arrive for it. -/
theorem headerValuesFor_reserved_nil (ls : List (List Char)) (K : List Char)
    (hK : K ∈ reservedKeys)
    (hdr : ∀ l ∈ ls, parseRequestLine l = none → hasColon l = true →
      ¬ pyStrip (splitFirstColon l).1 ∈ reservedKeys) :
    headerValuesFor ls K = [] := by
  rw [headerValuesFor, List.filterMap_eq_nil_iff]
  intro l hl
  rw [headerValueOf]
  by_cases hb : pyStrip l = []
  · simp [hb]
  · rw [if_neg hb]
    cases hm : parseRequestLine l with
    | some t => rfl
    | none =>
      by_cases hc : hasColon l = true
      · have hkey : pyStrip (splitFirstColon l).1 ≠ K :=
          fun he => hdr l hl hm hc (he ▸ hK)
        simp [hc, hkey]
      · simp [hc]

/-- If no line of `ls` matches the request pattern and no header line uses a
reserved key, the reserved entries are untouched by the loop. -/
theorem parseLines_reserved_lookup (ls : List (List Char)) (r out : Record)
    (K : List Char) (hok : parseLines ls r = .ok out) (hK : K ∈ reservedKeys)
    (hnone : ∀ l ∈ ls, parseRequestLine l = none)
    (hdr : ∀ l ∈ ls, parseRequestLine l = none → hasColon l = true →
      ¬ pyStrip (splitFirstColon l).1 ∈ reservedKeys) :
    lookup out K = lookup r K := by
  have h := parseLines_lookup K ls r out hok (fun _ => hnone)
  rw [headerValuesFor_reserved_nil ls K hK hdr] at h
  simpa [applyValues] using h

/-- The last request-line match determines the three reserved entries, as
long as no header line reuses the reserved names. -/
theorem parseLines_last_req :
    ∀ (ls : List (List Char)) (r out : Record),
      parseLines ls r = .ok out →
      (∀ l ∈ ls, parseRequestLine l = none → hasColon l = true →
        ¬ pyStrip (splitFirstColon l).1 ∈ reservedKeys) →
      ∀ v p ver, (requestMatches ls).getLast? = some (v, p, ver) →
        lookup out httpVerbK = some (.scalar v) ∧
        lookup out httpPathK = some (.scalar p) ∧
        lookup out httpVersionK = some (.scalar ver)
  | [], r, out, hok, hdr, v, p, ver, hlast => by
    simp [requestMatches] at hlast
  | l :: ls, r, out, hok, hdr, v, p, ver, hlast => by
    have hdr' : ∀ l' ∈ ls, parseRequestLine l' = none → hasColon l' = true →
        ¬ pyStrip (splitFirstColon l').1 ∈ reservedKeys :=
      fun l' hl' => hdr l' (List.mem_cons_of_mem _ hl')
    by_cases hb : pyStrip l = []
    · have hm := parseRequestLine_of_all_ws l ((pyStrip_eq_nil_iff l).mp hb)
      rw [parseLines_cons_ok (lineAction_blank r hb)] at hok
      have hreq : requestMatches (l :: ls) = requestMatches ls := by
        simp [requestMatches, List.filterMap_cons, hm]
      rw [hreq] at hlast
      exact parseLines_last_req ls r out hok hdr' v p ver hlast
    · cases hm : parseRequestLine l with
      | some t =>
        obtain ⟨v0, p0, ver0⟩ := t
        rw [parseLines_cons_ok (lineAction_req r hb hm)] at hok
        have hreq : requestMatches (l :: ls) = (v0, p0, ver0) :: requestMatches ls := by
          simp [requestMatches, List.filterMap_cons, hm]
        rw [hreq] at hlast
        cases hrm : requestMatches ls with
        | nil =>
          rw [hrm] at hlast
          simp at hlast
          obtain ⟨rfl, rfl, rfl⟩ := hlast
          have hnone : ∀ l' ∈ ls, parseRequestLine l' = none := by
            have := (List.filterMap_eq_nil_iff (f := parseRequestLine)).mp hrm
            exact this
          have hpre : ∀ K, K ∈ reservedKeys →
              lookup out K =
                lookup (setScalar (setScalar (setScalar r httpVerbK v0) httpPathK p0)
                  httpVersionK ver0) K :=
            fun K hK => parseLines_reserved_lookup ls _ out K hok hK hnone hdr'
          refine ⟨?_, ?_, ?_⟩
          · rw [hpre httpVerbK (by simp [reservedKeys]),
              lookup_setScalar_ne _ _ _ _ (by decide),
              lookup_setScalar_ne _ _ _ _ (by decide), lookup_setScalar_self]
          · rw [hpre httpPathK (by simp [reservedKeys]),
              lookup_setScalar_ne _ _ _ _ (by decide), lookup_setScalar_self]
          · rw [hpre httpVersionK (by simp [reservedKeys]), lookup_setScalar_self]
        | cons m ms =>
          rw [hrm] at hlast
          rw [List.getLast?_cons_cons] at hlast
          have := parseLines_last_req ls _ out hok hdr' v p ver (by rw [hrm]; exact hlast)
          exact this
      | none =>
        by_cases hc : hasColon l = true
        · rw [parseLines_cons_ok (lineAction_header r hb hm hc)] at hok
          have hreq : requestMatches (l :: ls) = requestMatches ls := by
            simp [requestMatches, List.filterMap_cons, hm]
          rw [hreq] at hlast
          exact parseLines_last_req ls _ out hok hdr' v p ver hlast
        · have hc' : hasColon l = false := by simpa using hc
          rw [parseLines_cons_err (lineAction_invalid r hb hm hc')] at hok
          cases hok

/-- The first malformed line (non-blank, no pattern match, no colon) aborts
the parse with the error carrying that line. -/
theorem parseLines_invalid :
    ∀ (ls : List (List Char)) (r : Record),
      (∃ l ∈ ls, isInvalidLine l = true) →
      ∃ bad ∈ ls, isInvalidLine bad = true ∧ parseLines ls r = .error (.invalidLine bad)
  | [], _, h => by simp at h
  | l :: ls, r, h => by
    by_cases hb : pyStrip l = []
    · have hl : isInvalidLine l = false := by simp [isInvalidLine, hb]
      have hrest : ∃ x ∈ ls, isInvalidLine x = true := by
        obtain ⟨l', hl', hinv⟩ := h
        rcases List.mem_cons.mp hl' with he | hmem
        · subst he; rw [hl] at hinv; cases hinv
        · exact ⟨l', hmem, hinv⟩
      obtain ⟨bad, hbad, hbinv, heq⟩ := parseLines_invalid ls r hrest
      exact ⟨bad, List.mem_cons_of_mem _ hbad, hbinv,
        by rw [parseLines_cons_ok (lineAction_blank r hb), heq]⟩
    · cases hm : parseRequestLine l with
      | some t =>
        obtain ⟨v, p, ver⟩ := t
        have hl : isInvalidLine l = false := by simp [isInvalidLine, hb, hm]
        have hrest : ∃ x ∈ ls, isInvalidLine x = true := by
          obtain ⟨l', hl', hinv⟩ := h
          rcases List.mem_cons.mp hl' with he | hmem
          · subst he; rw [hl] at hinv; cases hinv
          · exact ⟨l', hmem, hinv⟩
        obtain ⟨bad, hbad, hbinv, heq⟩ := parseLines_invalid ls _ hrest
        exact ⟨bad, List.mem_cons_of_mem _ hbad, hbinv,
          by rw [parseLines_cons_ok (lineAction_req r hb hm), heq]⟩
      | none =>
        by_cases hc : hasColon l = true
        · have hl : isInvalidLine l = false := by simp [isInvalidLine, hb, hm, hc]
          have hrest : ∃ x ∈ ls, isInvalidLine x = true := by
            obtain ⟨l', hl', hinv⟩ := h
            rcases List.mem_cons.mp hl' with he | hmem
            · subst he; rw [hl] at hinv; cases hinv
            · exact ⟨l', hmem, hinv⟩
          obtain ⟨bad, hbad, hbinv, heq⟩ := parseLines_invalid ls _ hrest
          exact ⟨bad, List.mem_cons_of_mem _ hbad, hbinv,
            by rw [parseLines_cons_ok (lineAction_header r hb hm hc), heq]⟩
        · have hc' : hasColon l = false := by simpa using hc
          have hinv : isInvalidLine l = true := by simp [isInvalidLine, hb, hm, hc']
          exact ⟨l, List.mem_cons_self _ _, hinv,
            parseLines_cons_err (lineAction_invalid r hb hm hc')⟩

/-! ### Small helpers for lines built from a symbolic tail -/

theorem pyStrip_ne_nil_of_mem {l : List Char} {c : Char} (hc : c ∈ l)
    (hw : isPyWs c = false) : pyStrip l ≠ [] := by
  rw [Ne, pyStrip_eq_nil_iff]
  intro hall
  have := hall c hc
  rw [hw] at this
  cases this

theorem hasColon_of_mem {l : List Char} (h : ':' ∈ l) : hasColon l = true := by
  simpa [hasColon, List.elem_iff] using h

theorem parseRequestLine_cons_ne (c : Char) (l : List Char) (hg : c ≠ 'G') (hp : c ≠ 'P') :
    parseRequestLine (c :: l) = none := by
  have h3 : ¬ (c :: l).take 3 = ['G', 'E', 'T'] := by
    simp [List.take_succ_cons, hg]
  have h4 : ¬ (c :: l).take 4 = ['P', 'O', 'S', 'T'] := by
    simp [List.take_succ_cons, hp]
  simp [parseRequestLine, h3, h4, hg, hp]

theorem splitFirstColon_append (pre : List Char) (hpre : ¬ ':' ∈ pre) :
    ∀ x, splitFirstColon (pre ++ ':' :: x) = (pre, x) := by
  induction pre with
  | nil => intro x; simp [splitFirstColon]
  | cons c cs ih =>
    intro x
    have hc : c ≠ ':' := fun he => hpre (he ▸ List.mem_cons_self _ _)
    have hcs : ¬ ':' ∈ cs := fun hm => hpre (List.mem_cons_of_mem _ hm)
    simp [splitFirstColon, hc, ih hcs]

/-- A header-shaped line `name ++ ":" ++ x` takes the header branch and
stores the stripped name and value. -/
theorem lineAction_header_line (r : Record) (name x : List Char)
    (hmm : parseRequestLine (name ++ ':' :: x) = none) (hname : ¬ ':' ∈ name) :
    lineAction r (name ++ ':' :: x) = .ok (addHeader r (pyStrip name) (pyStrip x)) := by
  have hstrip : pyStrip (name ++ ':' :: x) ≠ [] :=
    pyStrip_ne_nil_of_mem (c := ':') (by simp) (by decide)
  have hc : hasColon (name ++ ':' :: x) = true := hasColon_of_mem (by simp)
  rw [lineAction_header r hstrip hmm hc, splitFirstColon_append name hname]

/-! ### Claim C2 -/

/-- C2: in a successfully decoded echo text, a header name `H` that is not
populated by a request line is stored as the arrival-ordered sequence of its
k values when k ≥ 2 and as a scalar when k = 1 (`seqOfValues` of the arrival
list), and the record's key order is the first-occurrence order of the
written keys. -/
theorem c2_duplicate_headers (s : String) (H : List Char) (out : Record)
    (hok : parse_whoami_response s = .ok out)
    (hnr : H ∈ reservedKeys → ∀ l ∈ pySplitlines s.data, parseRequestLine l = none) :
    lookup out H = seqOfValues (headerValuesFor (pySplitlines s.data) H) ∧
    keysOf out = ((pySplitlines s.data).flatMap keyWrites).foldl insertNew [] := by
  constructor
  · have h := parseLines_lookup H (pySplitlines s.data) [] out hok hnr
    rw [h, show lookup [] H = none from rfl, applyValues_none]
  · have h := parseLines_keys (pySplitlines s.data) [] out hok
    simpa [keysOf] using h

def c2s : String := "GET /x HTTP/1.1\nA: 1\nB: b\nA: 2\nA: 3\nHostname: h"

def c2rec : Record :=
  [(httpVerbK, .scalar "GET".data), (httpPathK, .scalar "/x".data),
   (httpVersionK, .scalar "1.1".data), ("A".data, .seq ["1".data, "2".data, "3".data]),
   ("B".data, .scalar "b".data), (hostnameK, .scalar "h".data)]

/-- Witness for C2 at a concrete echo text with `A` arriving three times. -/
theorem c2_duplicate_headers_witness :
    parse_whoami_response c2s = .ok c2rec ∧
    (lookup c2rec "A".data = seqOfValues (headerValuesFor (pySplitlines c2s.data) "A".data) ∧
     keysOf c2rec = ((pySplitlines c2s.data).flatMap keyWrites).foldl insertNew []) ∧
    lookup c2rec "A".data = some (.seq ["1".data, "2".data, "3".data]) :=
  ⟨by decide, c2_duplicate_headers c2s "A".data c2rec (by decide) (by decide), by decide⟩

/-! ### Claim C5 -/

/-- C5 counterexample: with two matching request lines the stored
`http-path` is the second line's path, not the first line's; and a later
header named `http-path` turns the stored entry into a sequence, so even a
unique matching line does not leave the field as its scalar path. -/
theorem c5_first_match_counterexample :
    parse_whoami_response "GET /a HTTP/1.1\nGET /b HTTP/1.1" =
      .ok [(httpVerbK, .scalar "GET".data), (httpPathK, .scalar "/b".data),
           (httpVersionK, .scalar "1.1".data)] ∧
    (requestMatches (pySplitlines "GET /a HTTP/1.1\nGET /b HTTP/1.1".data)).head? =
      some ("GET".data, "/a".data, "1.1".data) ∧
    ¬ HVal.scalar "/b".data = HVal.scalar "/a".data ∧
    parse_whoami_response "GET /c HTTP/1.1\nhttp-path: z" =
      .ok [(httpVerbK, .scalar "GET".data), (httpPathK, .seq ["/c".data, "z".data]),
           (httpVersionK, .scalar "1.1".data)] := by
  decide

/-- C5 (amended): every matching line overwrites the three distinguished
fields, so when decoding succeeds, no header line reuses the reserved names,
and at least one line matches, the fields hold the verb, path and version of
the LAST matching line. -/
theorem c5_last_request_line_determines (s : String) (out : Record) (v p ver : List Char)
    (hok : parse_whoami_response s = .ok out)
    (hdr : ∀ l ∈ pySplitlines s.data, parseRequestLine l = none → hasColon l = true →
      ¬ pyStrip (splitFirstColon l).1 ∈ reservedKeys)
    (hlast : (requestMatches (pySplitlines s.data)).getLast? = some (v, p, ver)) :
    lookup out httpVerbK = some (.scalar v) ∧ lookup out httpPathK = some (.scalar p) ∧
      lookup out httpVersionK = some (.scalar ver) :=
  parseLines_last_req (pySplitlines s.data) [] out hok hdr v p ver hlast

def c5s : String := "GET /a HTTP/1.0\nHostname: h\nPOST /b HTTP/1.1"

def c5rec : Record :=
  [(httpVerbK, .scalar "POST".data), (httpPathK, .scalar "/b".data),
   (httpVersionK, .scalar "1.1".data), (hostnameK, .scalar "h".data)]

/-- Witness for the amended C5 at a text with two request lines. -/
theorem c5_last_request_line_determines_witness :
    parse_whoami_response c5s = .ok c5rec ∧
    (lookup c5rec httpVerbK = some (.scalar "POST".data) ∧
     lookup c5rec httpPathK = some (.scalar "/b".data) ∧
     lookup c5rec httpVersionK = some (.scalar "1.1".data)) :=
  ⟨by decide,
    c5_last_request_line_determines c5s c5rec "POST".data "/b".data "1.1".data
      (by decide) (by decide) (by decide)⟩

/-! ### Claim C6 -/

/-- C6: a text containing a non-blank line with no colon and no request-line
match always fails to decode, with the error carrying such an offending
line, and never yields a (partial) record. -/
theorem c6_no_colon_line_fails (s : String)
    (h : ∃ l ∈ pySplitlines s.data, isInvalidLine l = true) :
    (∃ bad ∈ pySplitlines s.data, isInvalidLine bad = true ∧
      parse_whoami_response s = .error (.invalidLine bad)) ∧
    ∀ out : Record, ¬ parse_whoami_response s = .ok out := by
  obtain ⟨bad, hmem, hinv, heq⟩ := parseLines_invalid (pySplitlines s.data) [] h
  have heq' : parse_whoami_response s = .error (.invalidLine bad) := heq
  refine ⟨⟨bad, hmem, hinv, heq'⟩, ?_⟩
  intro out hok
  rw [heq'] at hok
  cases hok

/-- Witness for C6 on the colonless text `Hostname h`. -/
theorem c6_no_colon_line_fails_witness :
    (∃ l ∈ pySplitlines "Hostname h".data, isInvalidLine l = true) ∧
    (∃ bad ∈ pySplitlines "Hostname h".data, isInvalidLine bad = true ∧
      parse_whoami_response "Hostname h" = .error (.invalidLine bad)) :=
  ⟨by decide, (c6_no_colon_line_fails "Hostname h" (by decide)).1⟩

/-! ### Claim C10 -/

/-- C10: the request-line fields live in the same dict as the headers.  For
any header value text `x`, a request line followed by header lines literally
named `http-verb`, `http-path` and `http-version` promotes each distinguished
entry to the two-element sequence of the request-line value followed by the
header value — the distinguished fields are not guaranteed to stay scalar. -/
theorem c10_reserved_namespace_collision (x : List Char) :
    parseLines ["GET /a HTTP/1.1".data,
        httpVerbK ++ ':' :: x, httpPathK ++ ':' :: x, httpVersionK ++ ':' :: x,
        hostnameK ++ ':' :: x] [] =
      .ok [(httpVerbK, .seq ["GET".data, pyStrip x]),
           (httpPathK, .seq ["/a".data, pyStrip x]),
           (httpVersionK, .seq ["1.1".data, pyStrip x]),
           (hostnameK, .scalar (pyStrip x))] := by
  have e1 : lineAction ([] : Record) "GET /a HTTP/1.1".data =
      .ok [(httpVerbK, .scalar "GET".data), (httpPathK, .scalar "/a".data),
           (httpVersionK, .scalar "1.1".data)] := by decide
  have kvp : ¬ httpVerbK = httpPathK := by decide
  have kvv : ¬ httpVerbK = httpVersionK := by decide
  have kpv : ¬ httpPathK = httpVersionK := by decide
  have kvh : ¬ httpVerbK = hostnameK := by decide
  have kph : ¬ httpPathK = hostnameK := by decide
  have kverh : ¬ httpVersionK = hostnameK := by decide
  have hv : parseRequestLine (httpVerbK ++ ':' :: x) = none := by
    rw [show httpVerbK ++ ':' :: x = 'h' :: ("ttp-verb".data ++ ':' :: x) from rfl]
    exact parseRequestLine_cons_ne _ _ (by decide) (by decide)
  have hp : parseRequestLine (httpPathK ++ ':' :: x) = none := by
    rw [show httpPathK ++ ':' :: x = 'h' :: ("ttp-path".data ++ ':' :: x) from rfl]
    exact parseRequestLine_cons_ne _ _ (by decide) (by decide)
  have hver : parseRequestLine (httpVersionK ++ ':' :: x) = none := by
    rw [show httpVersionK ++ ':' :: x = 'h' :: ("ttp-version".data ++ ':' :: x) from rfl]
    exact parseRequestLine_cons_ne _ _ (by decide) (by decide)
  have hhost : parseRequestLine (hostnameK ++ ':' :: x) = none := by
    rw [show hostnameK ++ ':' :: x = 'H' :: ("ostname".data ++ ':' :: x) from rfl]
    exact parseRequestLine_cons_ne _ _ (by decide) (by decide)
  have e2 := lineAction_header_line
    [(httpVerbK, .scalar "GET".data), (httpPathK, .scalar "/a".data),
     (httpVersionK, .scalar "1.1".data)] httpVerbK x hv (by decide)
  rw [show pyStrip httpVerbK = httpVerbK from by decide] at e2
  have s2 : addHeader
      [(httpVerbK, .scalar "GET".data), (httpPathK, .scalar "/a".data),
       (httpVersionK, .scalar "1.1".data)] httpVerbK (pyStrip x) =
      [(httpVerbK, .seq ["GET".data, pyStrip x]), (httpPathK, .scalar "/a".data),
       (httpVersionK, .scalar "1.1".data)] := by
    simp [addHeader, promote, kvp, kvv, kpv, kvh, kph, kverh]
  rw [s2] at e2
  have e3 := lineAction_header_line
    [(httpVerbK, .seq ["GET".data, pyStrip x]), (httpPathK, .scalar "/a".data),
     (httpVersionK, .scalar "1.1".data)] httpPathK x hp (by decide)
  rw [show pyStrip httpPathK = httpPathK from by decide] at e3
  have s3 : addHeader
      [(httpVerbK, .seq ["GET".data, pyStrip x]), (httpPathK, .scalar "/a".data),
       (httpVersionK, .scalar "1.1".data)] httpPathK (pyStrip x) =
      [(httpVerbK, .seq ["GET".data, pyStrip x]), (httpPathK, .seq ["/a".data, pyStrip x]),
       (httpVersionK, .scalar "1.1".data)] := by
    simp [addHeader, promote, kvp, kvv, kpv, kvh, kph, kverh]
  rw [s3] at e3
  have e4 := lineAction_header_line
    [(httpVerbK, .seq ["GET".data, pyStrip x]), (httpPathK, .seq ["/a".data, pyStrip x]),
     (httpVersionK, .scalar "1.1".data)] httpVersionK x hver (by decide)
  rw [show pyStrip httpVersionK = httpVersionK from by decide] at e4
  have s4 : addHeader
      [(httpVerbK, .seq ["GET".data, pyStrip x]), (httpPathK, .seq ["/a".data, pyStrip x]),
       (httpVersionK, .scalar "1.1".data)] httpVersionK (pyStrip x) =
      [(httpVerbK, .seq ["GET".data, pyStrip x]), (httpPathK, .seq ["/a".data, pyStrip x]),
       (httpVersionK, .seq ["1.1".data, pyStrip x])] := by
    simp [addHeader, promote, kvp, kvv, kpv, kvh, kph, kverh]
  rw [s4] at e4
  have e5 := lineAction_header_line
    [(httpVerbK, .seq ["GET".data, pyStrip x]), (httpPathK, .seq ["/a".data, pyStrip x]),
     (httpVersionK, .seq ["1.1".data, pyStrip x])] hostnameK x hhost (by decide)
  rw [show pyStrip hostnameK = hostnameK from by decide] at e5
  have s5 : addHeader
      [(httpVerbK, .seq ["GET".data, pyStrip x]), (httpPathK, .seq ["/a".data, pyStrip x]),
       (httpVersionK, .seq ["1.1".data, pyStrip x])] hostnameK (pyStrip x) =
      [(httpVerbK, .seq ["GET".data, pyStrip x]), (httpPathK, .seq ["/a".data, pyStrip x]),
       (httpVersionK, .seq ["1.1".data, pyStrip x]), (hostnameK, .scalar (pyStrip x))] := by
    simp [addHeader, promote, kvp, kvv, kpv, kvh, kph, kverh]
  rw [s5] at e5
  rw [parseLines_cons_ok e1, parseLines_cons_ok e2, parseLines_cons_ok e3,
    parseLines_cons_ok e4, parseLines_cons_ok e5]
  rfl

/-! ### Claim C1 -/

theorem checkHostname_ok_iff (r : Record) (eh : Option String) :
    checkHostname r eh = .ok () ↔
      ∃ hv, lookup r hostnameK = some hv ∧ ∀ h, eh = some h → hv = .scalar h.data := by
  cases hlh : lookup r hostnameK with
  | none => simp [checkHostname, hlh]
  | some hn =>
    cases eh with
    | none => simp [checkHostname, hlh]
    | some hexp =>
      cases hn with
      | seq vs => simp [checkHostname, hlh, hvalNeq]
      | scalar t =>
        by_cases he : t = hexp.data
        · simp [checkHostname, hlh, hvalNeq, he]
        · simp [checkHostname, hlh, hvalNeq, he]

/-- C1 counterexample: for the response `GET /n HTTP/1.1` + `Foo: bar`, the
decoded `http-path` (with no prefix configured) equals `/{nonce}` for nonce
`n` and no hostname expectation is set — the claimed success condition holds
— yet the probe raises (missing `Hostname` header) instead of succeeding. -/
theorem c1_counterexample :
    parse_whoami_response "GET /n HTTP/1.1\nFoo: bar" =
      .ok [(httpVerbK, .scalar "GET".data), (httpPathK, .scalar "/n".data),
           (httpVersionK, .scalar "1.1".data), ("Foo".data, .scalar "bar".data)] ∧
    prefixAdjust (normPrefixC none) "/n".data = '/' :: "n".data ∧
    checkWhoami "GET /n HTTP/1.1\nFoo: bar" "n" none none = .error .noHostname := by
  decide

/-- C1 (amended): the probe succeeds iff the response decodes, the decoded
`http-path` is a scalar whose prefix-adjusted value equals `/{nonce}`
exactly, and a `Hostname` entry is present and, when `expected_hostname` is
set, is exactly that scalar.  Any deviation yields an error instead. -/
theorem c1_probe_success_iff (resp nonce : String) (eh spp : Option String) :
    checkWhoami resp nonce eh spp = .ok () ↔
      ∃ r, parse_whoami_response resp = .ok r ∧
        (∃ s, lookup r httpPathK = some (.scalar s) ∧
          prefixAdjust (normPrefixC spp) s = '/' :: nonce.data) ∧
        (∃ hv, lookup r hostnameK = some hv ∧ ∀ h, eh = some h → hv = .scalar h.data) := by
  rw [checkWhoami]
  cases hr : parse_whoami_response resp with
  | error e => simp
  | ok r =>
    simp only [Except.ok.injEq, exists_eq_left']
    cases hlp : lookup r httpPathK with
    | none => simp
    | some hp =>
      cases hp with
      | seq vs =>
        cases hsp : normPrefixC spp <;> simp [tryPrefix, hvalNeq]
      | scalar s =>
        cases hsp : normPrefixC spp with
        | none =>
          by_cases hpe : s = '/' :: nonce.data
          · simp [tryPrefix, hvalNeq, hpe, checkHostname_ok_iff, prefixAdjust]
          · simp [tryPrefix, hvalNeq, hpe, prefixAdjust]
        | some p =>
          by_cases hpe : p ++ s = '/' :: nonce.data
          · simp [tryPrefix, hvalNeq, hpe, checkHostname_ok_iff, prefixAdjust]
          · simp [tryPrefix, hvalNeq, hpe, prefixAdjust]

/-! ### Claim C7 -/

/-- C7: an empty `stripped_path_prefix` behaves exactly like no prefix; a
non-empty prefix without a leading `/` gets one prepended; and the normalized
prefix is prepended to the observed path before the comparison — with prefix
`/api` and observed path `/abc123` the compared value is `/api/abc123`, as the
two concrete probes (nonce `api/abc123` succeeding, nonce `abc123` failing
with actual value `/api/abc123`) exhibit. -/
theorem c7_prefix_normalization :
    (∀ (resp nonce : String) (eh : Option String),
      checkWhoami resp nonce eh (some "") = checkWhoami resp nonce eh none) ∧
    (∀ p : String, ¬ p.data = [] → ¬ p.data.head? = some '/' →
      normPrefixC (some p) = some ('/' :: p.data)) ∧
    checkWhoami "GET /abc123 HTTP/1.1\nHostname: h" "api/abc123" none (some "/api") = .ok () ∧
    checkWhoami "GET /abc123 HTTP/1.1\nHostname: h" "abc123" none (some "/api") =
      .error (.pathMismatch ('/' :: "abc123".data) (.scalar "/api/abc123".data)) := by
  refine ⟨?_, ?_, by decide, by decide⟩
  · intro resp nonce eh
    rw [checkWhoami, checkWhoami,
      show normPrefixC (some "") = normPrefixC none from by decide]
  · intro p h1 h2
    simp [normPrefixC, h1, h2]

/-- Witness for C7: the empty prefix at a concrete probe, and the slash
normalization of the concrete prefix `api`. -/
theorem c7_prefix_normalization_witness :
    checkWhoami "GET /q HTTP/1.1\nHostname: h" "q" none (some "") =
      checkWhoami "GET /q HTTP/1.1\nHostname: h" "q" none none ∧
    normPrefixC (some "api") = some ('/' :: "api".data) :=
  ⟨c7_prefix_normalization.1 "GET /q HTTP/1.1\nHostname: h" "q" none,
   c7_prefix_normalization.2.1 "api" (by decide) (by decide)⟩

/-! ### Claim C3 -/

/-- C3 counterexample: when more than one address resolves but the expected
one is not among them, the code takes the membership-failure branch
(`resolves to R, not E`), not the multiple-addresses branch the claim calls
`AmbiguousResolution`; and the empty resolution takes the very same
membership-failure branch, so there is no distinct `NoResolution` error
either. -/
theorem c3_counterexample :
    test_public_dns_name "1.2.3.4" ["1.2.3.5", "1.2.3.6"] =
      .failNotExpected ["1.2.3.5", "1.2.3.6"] "1.2.3.4" ∧
    ¬ test_public_dns_name "1.2.3.4" ["1.2.3.5", "1.2.3.6"] =
      .failMultiple ["1.2.3.5", "1.2.3.6"] "1.2.3.4" ∧
    test_public_dns_name "1.2.3.4" [] = .failNotExpected [] "1.2.3.4" := by
  decide

/-- C3 (amended): DNS validation passes exactly when the resolved list is the
singleton of the expected address; whenever the expected address is not among
the resolved addresses — including the empty resolution — it fails with the
membership error naming both; and when the expected address is among more
than one resolved address it fails with the multiple-addresses error. -/
theorem c3_dns_validation (expected : String) (resolved : List String) :
    (test_public_dns_name expected resolved = .pass ↔ resolved = [expected]) ∧
    (¬ expected ∈ resolved →
      test_public_dns_name expected resolved = .failNotExpected resolved expected) ∧
    (expected ∈ resolved → resolved.length > 1 →
      test_public_dns_name expected resolved = .failMultiple resolved expected) := by
  refine ⟨⟨?_, ?_⟩, ?_, ?_⟩
  · intro h
    by_cases hm : expected ∈ resolved
    · by_cases hl : resolved.length > 1
      · simp [test_public_dns_name, hm, hl] at h
      · cases resolved with
        | nil => cases hm
        | cons a t =>
          cases t with
          | nil =>
            have ha : expected = a := by simpa using hm
            rw [ha]
          | cons b t2 => simp at hl
    · simp [test_public_dns_name, hm] at h
  · intro h
    subst h
    simp [test_public_dns_name]
  · intro hm
    simp [test_public_dns_name, hm]
  · intro hm hl
    simp [test_public_dns_name, hm, hl]

/-- Witness for the amended C3 on the spec's concrete resolution sets. -/
theorem c3_dns_validation_witness :
    test_public_dns_name "1.2.3.4" ["1.2.3.4"] = .pass ∧
    test_public_dns_name "1.2.3.4" [] = .failNotExpected [] "1.2.3.4" ∧
    test_public_dns_name "1.2.3.4" ["1.2.3.4", "1.2.3.5"] =
      .failMultiple ["1.2.3.4", "1.2.3.5"] "1.2.3.4" :=
  ⟨(c3_dns_validation "1.2.3.4" ["1.2.3.4"]).1.mpr rfl,
   (c3_dns_validation "1.2.3.4" []).2.1 (by decide),
   (c3_dns_validation "1.2.3.4" ["1.2.3.4", "1.2.3.5"]).2.2 (by decide) (by decide)⟩

/-! ### Claims C4, C8, C9 (port test orchestrator) -/

theorem runLan_not_start (probe : String → Nat → Except String Unit) (lanIp : String)
    (ps : List Nat) (m e : String) :
    ¬ (runLan probe lanIp ps).outcome = .error (.startFailure m e) := by
  induction ps with
  | nil => simp [runLan]
  | cons p rest ih =>
    rw [runLan]
    cases hp : probe lanIp p with
    | ok u => simpa using ih
    | error er => simp

theorem runPub_not_start (probe : String → Nat → Except String Unit) (publicIp lanIp : String)
    (ps : List Nat) (m e : String) :
    ¬ (runPub probe publicIp lanIp ps).outcome = .error (.startFailure m e) := by
  induction ps with
  | nil => simp [runPub]
  | cons p rest ih =>
    rw [runPub]
    cases hp : probe publicIp p with
    | ok u => simpa using ih
    | error er => simp

/-- C8: failing to bring the stub stack up (before `stack_created` is set) is
surfaced as the distinguishable start failure with the Traefik advice; once
the stack is up, whatever error the probing loops raise is re-raised as-is
and is never the start failure. -/
theorem c8_start_failure_distinguished (up : Except String Unit)
    (probe : String → Nat → Except String Unit) (publicIp lanIp : String) :
    (∀ e, up = .error e →
      (test_server_traefik_ports up probe publicIp lanIp).outcome =
        .error (.startFailure startFailureMessage e)) ∧
    (up = .ok () → ∀ m e,
      ¬ (test_server_traefik_ports up probe publicIp lanIp).outcome =
        .error (.startFailure m e)) := by
  constructor
  · intro e he
    subst he
    rfl
  · intro hup m e
    subst hup
    cases ho : (runLan probe lanIp ports).outcome with
    | error oe =>
      have hout : (test_server_traefik_ports (.ok ()) probe publicIp lanIp).outcome =
          .error oe := by
        simp [test_server_traefik_ports, ho]
      have hne := runLan_not_start probe lanIp ports m e
      rw [ho] at hne
      rw [hout]
      exact hne
    | ok u =>
      have hout : (test_server_traefik_ports (.ok ()) probe publicIp lanIp).outcome =
          (runPub probe publicIp lanIp publicPorts).outcome := by
        simp [test_server_traefik_ports, ho]
      rw [hout]
      exact runPub_not_start probe publicIp lanIp publicPorts m e

/-- Witness for C8: a concrete failed acquisition and a concrete healthy run. -/
theorem c8_start_failure_distinguished_witness :
    (test_server_traefik_ports (.error "port 80 already bound") (fun _ _ => .ok ())
        "203.0.113.7" "192.168.1.10").outcome =
      .error (.startFailure startFailureMessage "port 80 already bound") ∧
    ¬ (test_server_traefik_ports (.ok ()) (fun _ _ => .ok ())
        "203.0.113.7" "192.168.1.10").outcome =
      .error (.startFailure startFailureMessage "x") :=
  ⟨(c8_start_failure_distinguished (.error "port 80 already bound") (fun _ _ => .ok ())
      "203.0.113.7" "192.168.1.10").1 "port 80 already bound" rfl,
   (c8_start_failure_distinguished (.ok ()) (fun _ _ => .ok ())
      "203.0.113.7" "192.168.1.10").2 rfl startFailureMessage "x"⟩

/-- C9: with the stack up and every probe passing, the orchestrator probes
the LAN address on exactly the matrix 80, 443, 7080, 7443, 8080, 9000 in that
order and then the public address on exactly 80 and 443, reporting each
public port `P` as forwarded to LAN port `P + 7000` (7080 and 7443). -/
theorem c9_port_matrix (probe : String → Nat → Except String Unit) (publicIp lanIp : String)
    (hall : ∀ h p, probe h p = .ok ()) :
    (test_server_traefik_ports (.ok ()) probe publicIp lanIp).attempts =
      [(lanIp, 80), (lanIp, 443), (lanIp, 7080), (lanIp, 7443), (lanIp, 8080), (lanIp, 9000),
       (publicIp, 80), (publicIp, 443)] ∧
    (test_server_traefik_ports (.ok ()) probe publicIp lanIp).outcome = .ok () ∧
    (test_server_traefik_ports (.ok ()) probe publicIp lanIp).logs =
      [lanPassMsg lanIp 80, lanPassMsg lanIp 443, lanPassMsg lanIp 7080, lanPassMsg lanIp 7443,
       lanPassMsg lanIp 8080, lanPassMsg lanIp 9000,
       pubPassMsg publicIp lanIp 80, pubPassMsg publicIp lanIp 443] ∧
    pubForwardTarget 80 = 7080 ∧ pubForwardTarget 443 = 7443 := by
  refine ⟨?_, ?_, ?_, by decide, by decide⟩ <;>
    simp [test_server_traefik_ports, runLan, runPub, ports, publicPorts, hall]

/-- Witness for C9 with an everywhere-passing probe. -/
theorem c9_port_matrix_witness :
    (test_server_traefik_ports (.ok ()) (fun _ _ => .ok ())
        "203.0.113.7" "192.168.1.10").attempts =
      [("192.168.1.10", 80), ("192.168.1.10", 443), ("192.168.1.10", 7080),
       ("192.168.1.10", 7443), ("192.168.1.10", 8080), ("192.168.1.10", 9000),
       ("203.0.113.7", 80), ("203.0.113.7", 443)] :=
  (c9_port_matrix (fun _ _ => .ok ()) "203.0.113.7" "192.168.1.10" (fun _ _ => rfl)).1

/-- A probe behaviour where every LAN target answers correctly and the
public address refuses connections on port 80. -/
def c4probe : String → Nat → Except String Unit :=
  fun h p => if h = "203.0.113.7" ∧ p = 80 then .error "connection refused" else .ok ()

/-- C4: a concrete run in which every LAN probe passes and the probe of the
public address on port 80 fails.  The run stops at the failing pair — port
443 is never probed — and the stub stack teardown still runs, but the error
surfaced is the `raise(f"...")` slip of line 163: Python raises `TypeError`
for the string, so the surfaced error carries only the in-flight cause and
not the (host, port) pair or the 80 → 7080 mapping named in the discarded
message. -/
theorem c4_public_failure_loses_context :
    (test_server_traefik_ports (.ok ()) c4probe "203.0.113.7" "192.168.1.10").outcome =
      .error (.stringRaiseTypeError "connection refused") ∧
    (test_server_traefik_ports (.ok ()) c4probe "203.0.113.7" "192.168.1.10").attempts =
      [("192.168.1.10", 80), ("192.168.1.10", 443), ("192.168.1.10", 7080),
       ("192.168.1.10", 7443), ("192.168.1.10", 8080), ("192.168.1.10", 9000),
       ("203.0.113.7", 80)] ∧
    (test_server_traefik_ports (.ok ()) c4probe "203.0.113.7" "192.168.1.10").teardownRan
      = true := by
  decide

end TpHub
